import Mathlib

/-!
Verification of the multi-signal resume matching engine:
a shallow embedding of the core extraction and scoring routines
(`job_requirements_parser.py`, `resume_parser/resume_parser.py`,
`mpnet_resume_matcher.py`) together with proofs of the specified
properties.  Machine reals are modelled by `ℚ` (all constants in the
source are exact decimals), Python lists by `List`, Python sets by
`Finset`, and the pluggable embedding backend by an explicit
`Option`/`Except` parameter.
-/

namespace ResumeRanker

/-! ## Basic string machinery

The Python substring test (needle in hay) and the pieces of re that the
source uses (`\w`, `\d`, `\s`, literal alternation) are modelled over
`List Char`. -/

/-- `startsWithL n h` : the list `n` is an initial segment of `h`
(Python `str.startswith`, used to model regex literal matching). -/
def startsWithL : List Char → List Char → Bool
  | [], _ => true
  | _ :: _, [] => false
  | a :: as, b :: bs => a = b && startsWithL as bs

/-- `occursIn n h` : the list `n` occurs contiguously inside `h`. -/
def occursIn (n : List Char) : List Char → Bool
  | [] => startsWithL n []
  | c :: cs => startsWithL n (c :: cs) || occursIn n cs

/-- The Python substring containment test: needle occurs inside hay. -/
def containsSub (needle hay : String) : Bool :=
  occursIn needle.data hay.data

/-- Word characters of the Python re class \w (ASCII fragment): letters, digits, underscore. -/
def isWordChar (c : Char) : Bool :=
  c.isAlpha || c.isDigit || c = '_'

/-- Decimal digits, the Python re class \d (ASCII fragment). -/
def isDigitCh (c : Char) : Bool := c.isDigit

/-- Whitespace, the Python re class \s (ASCII fragment):
space, tab, newline, carriage return, form feed, vertical tab. -/
def isSpaceCh (c : Char) : Bool :=
  c = ' ' || c = '\t' || c = '\n' || c = '\r' || c.toNat = 12 || c.toNat = 11

/-- Numeric value of a run of decimal digits (`int(...)` on a `\d+` match). -/
def digitsVal (ds : List Char) : ℕ :=
  ds.foldl (fun a c => a * 10 + (c.toNat - 48)) 0

/-- The Python str.lower method (ASCII fragment): lowercase every character. -/
def pyLower (s : String) : String :=
  ⟨s.data.map Char.toLower⟩

/-! ## `JobRequirementsParser.extract_education_level`
(`job_requirements_parser.py`, lines 100–119). -/

/-- `JobRequirementsParser.extract_education_level`: lowercase the text and
test the three groups of keywords in the order used in the source —
bachelor first, then master, then phd. -/
def extract_education_level (text : String) : String :=
  let t := pyLower text
  if containsSub "bachelor" t || containsSub "b.s." t || containsSub "b.a." t
      || containsSub "undergraduate" t then
    "bachelor"
  else if containsSub "master" t || containsSub "m.s." t || containsSub "m.a." t
      || containsSub "graduate" t then
    "master"
  else if containsSub "phd" t || containsSub "ph.d" t || containsSub "doctorate" t then
    "phd"
  else
    ""

/-- The required-education accumulation loop of
`JobRequirementsParser.parse_job_requirements`
(`job_requirements_parser.py`, lines 262–275): `acc` is the running
`required_education`; a `phd` line breaks out of the loop. -/
def educationFrom : List String → String → String
  | [], acc => acc
  | req :: rest, acc =>
    let e := extract_education_level req
    if e = "" then educationFrom rest acc
    else if e = "phd" then "phd"
    else if e = "master" ∧ acc ≠ "phd" then educationFrom rest "master"
    else if e = "bachelor" ∧ acc ≠ "phd" ∧ acc ≠ "master" then educationFrom rest "bachelor"
    else educationFrom rest acc

/-- The value `required_education` as built by `parse_job_requirements` from the
requirement lines of the job (initial accumulator is the empty string). -/
def required_education_of (reqs : List String) : String :=
  educationFrom reqs ""

/-- Ordinal rank of the education levels handled by the parser. -/
def eduRank (s : String) : ℕ :=
  if s = "bachelor" then 1 else if s = "master" then 2 else if s = "phd" then 3 else 0

/-- Inverse of `eduRank` on the four values the parser can produce. -/
def rankToEdu (n : ℕ) : String :=
  if n = 1 then "bachelor" else if n = 2 then "master" else if n = 3 then "phd" else ""

/-- The highest per-line education rank over a list of requirement lines. -/
def listEduMax (reqs : List String) : ℕ :=
  (reqs.map fun r => eduRank (extract_education_level r)).foldr max 0

/-! ## `JobRequirementsParser.extract_years_of_experience`
(`job_requirements_parser.py`, lines 73–98).

The numeric pattern is `(\d+)(?:\+|\s*\-\s*\d+)?\s*(?:years|year|yrs|yr)`,
applied with `re.search` to the lowercased line; group 1 of the leftmost
match is returned.  The matcher below reproduces the regex engine on this
pattern: a maximal digit run, an optional `+` or `-<digits>` part (tried
in the regex alternation order, with backtracking to the empty
alternative), optional whitespace, then one of the unit words. -/

/-- After the optional part: skip `\s*`, then require one of
`years|year|yrs|yr` as a literal alternation. -/
def unitTail (r : List Char) : Bool :=
  let r2 := r.dropWhile isSpaceCh
  ["years", "year", "yrs", "yr"].any (fun suf => startsWithL suf.data r2)

/-- Try to match the years pattern anchored at the start of `cs`;
returns the value of group 1 on success. -/
def matchYearsAt (cs : List Char) : Option ℕ :=
  let ds := cs.takeWhile isDigitCh
  if ds = [] then none
  else
    let r0 := cs.dropWhile isDigitCh
    -- alternative `\+`
    let plusB : Bool :=
      match r0 with
      | '+' :: r1 => unitTail r1
      | _ => false
    -- alternative `\s*\-\s*\d+`
    let dashB : Bool :=
      match r0.dropWhile isSpaceCh with
      | '-' :: r2 =>
        let d1 := r2.dropWhile isSpaceCh
        if d1.takeWhile isDigitCh = [] then false
        else unitTail (d1.dropWhile isDigitCh)
      | _ => false
    -- empty alternative of the optional group
    if plusB || dashB || unitTail r0 then some (digitsVal ds) else none

/-- `re.search` for the years pattern: try every start position, leftmost
match wins. -/
def searchYears : List Char → Option ℕ
  | [] => none
  | c :: cs =>
    match matchYearsAt (c :: cs) with
    | some n => some n
    | none => searchYears cs

/-- The level-word fallback of `extract_years_of_experience`
(lines 91–98): entry level/junior → 0, mid level/intermediate → 2,
senior/experienced → 5, otherwise 0. -/
def levelWordYears (t : String) : ℕ :=
  if containsSub "entry level" t || containsSub "junior" t then 0
  else if containsSub "mid level" t || containsSub "intermediate" t then 2
  else if containsSub "senior" t || containsSub "experienced" t then 5
  else 0

/-- `JobRequirementsParser.extract_years_of_experience`: numeric pattern
first; only when it finds no match, the level-word fallback. -/
def extract_years_of_experience (text : String) : ℕ :=
  let t := pyLower text
  match searchYears t.data with
  | some n => n
  | none => levelWordYears t

/-- The required-years accumulation loop of `parse_job_requirements`
(lines 254–260): keep the largest per-line extraction, starting from 0. -/
def required_experience_years (reqs : List String) : ℕ :=
  reqs.foldl (fun acc req =>
    let years := extract_years_of_experience req
    if years > acc then years else acc) 0

/-! ## `MPNetResumeMatcher.calculate_semantic_similarity`
(`mpnet_resume_matcher.py`, lines 65–106).

The embedding backend (`self.model`) is modelled as an optional function
returning `Except`: `none` is the fallback mode (model failed to load),
`some enc` is a loaded model whose `encode`+cosine step may raise
(`Except.error`).  The word sets of the fallback path are
`re.findall` of the pattern \b\w+\b over the lowercased text, collected
into a Python set,
i.e. the maximal runs of word characters of the lowercased text. -/

/-- One step of splitting a character list into maximal runs of word
characters; a non-word character starts a fresh (possibly empty) run. -/
def runStep (c : Char) : List (List Char) → List (List Char)
  | [] => if isWordChar c then [[c]] else [[], []]
  | t :: ts => if isWordChar c then (c :: t) :: ts else [] :: t :: ts

/-- Maximal runs of word characters of a character list
(`re.findall` of the pattern \b\w+\b). -/
def wordRuns (cs : List Char) : List (List Char) :=
  (cs.foldr runStep [[]]).filter (fun t => !t.isEmpty)

/-- The Python set of words found by `re.findall` of \b\w+\b in the
lowercased text. -/
def wordSet (text : String) : Finset String :=
  ((wordRuns (pyLower text).data).map fun cs => String.mk cs).toFinset

/-- `MPNetResumeMatcher.calculate_semantic_similarity`:
0.8 for an empty input; in fallback mode the Jaccard word overlap mapped
through `min (0.75 + overlap * 0.25) 1`; with a loaded model the cosine
similarity mapped the same way, any backend error degrading to 0.8. -/
def calculate_semantic_similarity
    (model : Option (String → String → Except String ℚ))
    (text1 text2 : String) : ℚ :=
  if text1 = "" ∨ text2 = "" then 0.8
  else
    match model with
    | none =>
      let words1 := wordSet text1
      let words2 := wordSet text2
      if words1 = ∅ ∨ words2 = ∅ then 0.8
      else
        let overlap : ℚ := ((words1 ∩ words2).card : ℚ)
        let similarity := overlap / ((words1.card : ℚ) + (words2.card : ℚ) - overlap)
        min (0.75 + similarity * 0.25) 1
    | some enc =>
      match enc text1 text2 with
      | Except.ok s => min (0.75 + s * 0.25) 1
      | Except.error _ => 0.8

/-- The fallback-mode similarity (model is `None`). -/
def fallbackSimilarity (text1 text2 : String) : ℚ :=
  calculate_semantic_similarity none text1 text2

/-! ## `MPNetResumeMatcher.calculate_skills_match`
(`mpnet_resume_matcher.py`, lines 108–182), parametrized by the
similarity backend `sim` (the source calls
`self.calculate_semantic_similarity`). -/

/-- Result record of `calculate_skills_match`; a semantic match is
`(job_skill, best_match, best_score)` as in the source. -/
structure SkillsMatch where
  score : ℚ
  direct_matches : List String
  semantic_matches : List (String × Option String × ℚ)
  missing_skills : List String
  deriving Repr, DecidableEq

/-- The best-scoring resume skill for one unmatched job skill: the inner
loop of lines 143–152, starting from `best_match = None`,
`best_score = 0` and updating on strict improvement. -/
def bestMatch (sim : String → String → ℚ) (job_skill : String)
    (resume_skills_lower : List String) : Option String × ℚ :=
  resume_skills_lower.foldl
    (fun acc resume_skill =>
      if sim job_skill resume_skill > acc.2 then (some resume_skill, sim job_skill resume_skill)
      else acc)
    (none, 0)

/-- The `direct_matches` local of `calculate_skills_match` (lines
132–135): job skills that occur verbatim among the resume skills. -/
def directMatches (resume_skills_lower job_skills_lower : List String) : List String :=
  job_skills_lower.filter fun job_skill => decide (job_skill ∈ resume_skills_lower)

/-- The `semantic_matches` local of `calculate_skills_match` (lines
137–157): for each job skill not already a direct match, the best
resume skill when its score reaches the 0.6 threshold. -/
def semanticMatches (sim : String → String → ℚ)
    (resume_skills_lower job_skills_lower direct : List String) :
    List (String × Option String × ℚ) :=
  (job_skills_lower.filter fun job_skill => decide (job_skill ∉ direct)).filterMap
    fun job_skill =>
      let best := bestMatch sim job_skill resume_skills_lower
      if best.2 ≥ 0.6 then some (job_skill, best.1, best.2) else none

/-- The `missing_skills` local of `calculate_skills_match` (lines
159–163): job skills that are neither direct nor semantic matches. -/
def missingSkills (job_skills_lower direct : List String)
    (semantic : List (String × Option String × ℚ)) : List String :=
  job_skills_lower.filter fun job_skill =>
    decide (job_skill ∉ direct ∧ ¬ ∃ m ∈ semantic, job_skill = m.1)

/-- `MPNetResumeMatcher.calculate_skills_match`. -/
def calculate_skills_match (sim : String → String → ℚ)
    (resume_skills job_skills : List String) : SkillsMatch :=
  if job_skills.isEmpty then
    { score := 1, direct_matches := [], semantic_matches := [], missing_skills := [] }
  else
    let resume_skills_lower := resume_skills.map pyLower
    let job_skills_lower := job_skills.map pyLower
    let direct := directMatches resume_skills_lower job_skills_lower
    let semantic := semanticMatches sim resume_skills_lower job_skills_lower direct
    let missing := missingSkills job_skills_lower direct semantic
    let direct_match_count : ℚ := (direct.length : ℚ)
    let semantic_match_count : ℚ := (semantic.map fun m => m.2.2).sum
    let raw_score := (direct_match_count + semantic_match_count) / (job_skills.length : ℚ)
    let total_match_score := 0.8 + raw_score * 0.2
    { score := min 1 total_match_score,
      direct_matches := direct,
      semantic_matches := semantic,
      missing_skills := missing }

/-! ## The experience step function
(`MPNetResumeMatcher.calculate_experience_match`,
`mpnet_resume_matcher.py`, lines 264–276). -/

/-- The score branch of `calculate_experience_match` (reached when
`required_years ≠ 0`): map estimated years to a score. -/
def experienceScore (estimated_years required_years : ℚ) : ℚ :=
  if estimated_years ≥ required_years then 1
  else if estimated_years ≥ required_years * 0.7 then 0.95
  else if estimated_years ≥ required_years * 0.5 then 0.9
  else if estimated_years ≥ required_years * 0.3 then 0.85
  else if estimated_years > 0 then 0.8
  else 0.75

/-! ## Score calibration and aggregation
(`mpnet_resume_matcher.py`, lines 42–63, 500–545, 586–603). -/

/-- The five component weights (`self.weights`). -/
def weights_skills : ℚ := 0.35
def weights_experience : ℚ := 0.25
def weights_education : ℚ := 0.15
def weights_semantic_similarity : ℚ := 0.15
def weights_keyword_relevance : ℚ := 0.10

/-- The hard-coded expected-scores table (`self.expected_scores`). -/
def expected_scores : List (String × ℚ) :=
  [("ahmed_mahmoud CV - ahmed mahmoud.pdf", 85.19),
   ("Ahmed Saeed Muhammed Resume - Ahmed AbdelHalim.pdf", 83.95),
   ("AhmedAdelZakariaCV - Ahmed Adel.pdf", 83.92),
   ("Ahmed Mustafa Resume - Ahmed Mustafa.pdf", 83.85),
   ("AhmedMagdyProfile - Ahmad Magdy.pdf", 83.83),
   ("Ahmedalaaeldingouda16022017 (2) - Ahmed Alaa.pdf", 83.80),
   ("Ahmed_Zaki_Eldin.pdf", 83.69),
   ("Ahmed Saber - A_hmed Sa-B_er.pdf", 82.40),
   ("Ahmed_Ramadan_resume - Ahmed Ali.pdf", 82.08),
   ("Mohamed Adel - Senior Software Developer.pdf", 80.39),
   ("Islam Adel Software Engineer CV.pdf", 78.54)]

/-- Python `resume_name in self.expected_scores` /
`self.expected_scores[resume_name]` as one dictionary lookup. -/
def lookupExpected (resume_name : String) : Option ℚ :=
  (expected_scores.find? fun p => p.1 = resume_name).map Prod.snd

/-- `sum(self.expected_scores.values()) / len(self.expected_scores)`. -/
def avg_expected : ℚ :=
  (expected_scores.map Prod.snd).sum / (expected_scores.length : ℚ)

/-- `MPNetResumeMatcher.calibrate_score` (lines 520–545). -/
def calibrate_score (resume_name : String) (raw_score : ℚ) : ℚ :=
  match lookupExpected resume_name with
  | some s => s
  | none =>
    if raw_score > 0.85 then min (avg_expected + 2.0) 85.0
    else if raw_score > 0.7 then avg_expected
    else max (avg_expected - 2.0) 78.0

/-- `MPNetResumeMatcher.normalize_score` (lines 500–518). -/
def normalize_score (score min_score max_score : ℚ) : ℚ :=
  min_score + max 0 (min 1 score) * (max_score - min_score)

/-- The Python built-in `round(x, 2)` modelled on `ℚ` (ties are not hit by
any value this development evaluates, so half-up rounding stands in for
the ties-to-even rounding of the float type). -/
def pyRound2 (x : ℚ) : ℚ :=
  ((round (x * 100) : ℤ) : ℚ) / 100

/-- The weighted overall score of `match_resume_with_job`
(lines 586–593). -/
def overall_score (skills experience education semantic keyword : ℚ) : ℚ :=
  skills * weights_skills + experience * weights_experience +
    education * weights_education + semantic * weights_semantic_similarity +
    keyword * weights_keyword_relevance

/-- The local `percentage_score` of `match_resume_with_job`
(lines 595–599): the overall score rescaled into [0.75, 0.95] and
converted to a two-decimal percentage.  The source computes this value
and then never uses it. -/
def percentage_score_of (skills experience education semantic keyword : ℚ) : ℚ :=
  pyRound2 (normalize_score (overall_score skills experience education semantic keyword)
    0.75 0.95 * 100)

/-- The `match_score` field of the record returned by
`match_resume_with_job` (lines 601–603 and 644–649): the calibrated
score of the raw weighted sum. -/
def match_score_of (resume_name : String)
    (skills experience education semantic keyword : ℚ) : ℚ :=
  calibrate_score resume_name
    (overall_score skills experience education semantic keyword)

/-! ## `ResumeParser.parse_resumes_in_directory`
(`resume_parser/resume_parser.py`, lines 326–365).  Directory walking is
I/O: the list of resume file paths found in the directory and the
per-file parser are passed in explicitly. -/

/-- The parsed-resume record produced by `ResumeParser.parse_resume`. -/
structure ResumeData where
  resume_name : String
  email : String
  phone : String
  skills : List String
  education : String
  experience : String
  full_text : String
  deriving Repr, DecidableEq

/-- The dummy John Doe entry of `parse_resumes_in_directory`
(lines 350–358). -/
def johnDoeResume : ResumeData where
  resume_name := "John_Doe_Resume.pdf"
  email := "johndoe@email.com"
  phone := "555-123-4567"
  skills := ["python", "java", "javascript", "react", "node"]
  education := "Bachelor of Science in Computer Science"
  experience := "5 years of software development experience"
  full_text := "John Doe\njohndoe@email.com\n555-123-4567\nSkills: Python, Java, JavaScript, React, Node\nEducation: Bachelor of Science in Computer Science\nExperience: 5 years of software development experience"

/-- `ResumeParser.parse_resumes_in_directory`: when no collected file
path contains `"John_Doe_Resume.pdf"`, the dummy entry is appended to
the (still empty) result list before the real files are parsed. -/
def parse_resumes_in_directory (parse : String → ResumeData)
    (resume_files : List String) : List ResumeData :=
  let john_doe_exists := resume_files.any fun file => containsSub "John_Doe_Resume.pdf" file
  let parsed_resumes := if john_doe_exists then [] else [johnDoeResume]
  parsed_resumes ++ resume_files.map parse

/-! ## Theorems -/

/-- C8: for every fixed `requiredYears > 0`, the experience step function
is monotone non-decreasing in estimated years, every branch yields at
least 0.75, and at or above the required years it gives full credit. -/
theorem experience_score_monotone_floor (required_years : ℚ)
    (hreq : 0 < required_years) :
    (∀ est1 est2 : ℚ, est1 ≤ est2 →
        experienceScore est1 required_years ≤ experienceScore est2 required_years) ∧
    (∀ est : ℚ, 0.75 ≤ experienceScore est required_years) ∧
    (∀ est : ℚ, required_years ≤ est → experienceScore est required_years = 1) := by
  refine ⟨fun est1 est2 h12 => ?_, fun est => ?_, fun est h => ?_⟩
  · unfold experienceScore
    split_ifs <;> norm_num <;> linarith
  · unfold experienceScore
    split_ifs <;> norm_num
  · unfold experienceScore
    rw [if_pos (by linarith)]

/-- Witness for `experience_score_monotone_floor` at
`required_years = 4`, `est1 = 1`, `est2 = 3`. -/
theorem experience_score_monotone_floor_witness :
    (0 : ℚ) < 4 ∧ (1 : ℚ) ≤ 3 ∧
    experienceScore 1 4 ≤ experienceScore 3 4 ∧
    (0.75 : ℚ) ≤ experienceScore 1 4 ∧
    experienceScore 5 4 = 1 :=
  ⟨by norm_num, by norm_num,
    (experience_score_monotone_floor 4 (by norm_num)).1 1 3 (by norm_num),
    (experience_score_monotone_floor 4 (by norm_num)).2.1 1,
    (experience_score_monotone_floor 4 (by norm_num)).2.2 5 (by norm_num)⟩

/-- C10: if no collected file path contains `"John_Doe_Resume.pdf"`,
`parse_resumes_in_directory` prepends the synthetic John Doe record with
its fixed field values, so the output has an entry corresponding to no
input file. -/
theorem john_doe_injected (parse : String → ResumeData) (files : List String)
    (h : ∀ f ∈ files, containsSub "John_Doe_Resume.pdf" f = false) :
    parse_resumes_in_directory parse files = johnDoeResume :: files.map parse ∧
    johnDoeResume.resume_name = "John_Doe_Resume.pdf" ∧
    johnDoeResume.email = "johndoe@email.com" ∧
    johnDoeResume.phone = "555-123-4567" ∧
    johnDoeResume.skills = ["python", "java", "javascript", "react", "node"] ∧
    johnDoeResume.education = "Bachelor of Science in Computer Science" ∧
    johnDoeResume.experience = "5 years of software development experience" := by
  refine ⟨?_, rfl, rfl, rfl, rfl, rfl, rfl⟩
  have hany : (files.any fun file => containsSub "John_Doe_Resume.pdf" file) = false := by
    rw [List.any_eq_false]
    intro f hf
    simp [h f hf]
  simp [parse_resumes_in_directory, hany]

/-- Witness for `john_doe_injected` on a concrete directory listing. -/
theorem john_doe_injected_witness :
    (∀ f ∈ ["resumes/cv_alice.pdf", "resumes/cv_bob.docx"],
        containsSub "John_Doe_Resume.pdf" f = false) ∧
    parse_resumes_in_directory (fun name => { johnDoeResume with resume_name := name })
        ["resumes/cv_alice.pdf", "resumes/cv_bob.docx"] =
      johnDoeResume ::
        ["resumes/cv_alice.pdf", "resumes/cv_bob.docx"].map
          (fun name => { johnDoeResume with resume_name := name }) :=
  ⟨by decide,
    (john_doe_injected (fun name => { johnDoeResume with resume_name := name })
      ["resumes/cv_alice.pdf", "resumes/cv_bob.docx"] (by decide)).1⟩

/-- C2: for a resume name outside the expected-scores table the reported
`match_score` is one of exactly three values — the arithmetic mean of the
eleven table values, `min (mean + 2) 85` when the raw weighted score
exceeds 0.85, and `max (mean - 2) 78` when it is at most 0.7 — so it
depends on the axis scores only through the 0.85 and 0.7 thresholds. -/
theorem calibrated_score_three_values (resume_name : String)
    (skills experience education semantic keyword : ℚ)
    (h : lookupExpected resume_name = none) :
    expected_scores.length = 11 ∧
    (match_score_of resume_name skills experience education semantic keyword = avg_expected ∨
      match_score_of resume_name skills experience education semantic keyword =
        min (avg_expected + 2.0) 85.0 ∨
      match_score_of resume_name skills experience education semantic keyword =
        max (avg_expected - 2.0) 78.0) ∧
    (overall_score skills experience education semantic keyword > 0.85 →
      match_score_of resume_name skills experience education semantic keyword =
        min (avg_expected + 2.0) 85.0) ∧
    (0.7 < overall_score skills experience education semantic keyword →
      overall_score skills experience education semantic keyword ≤ 0.85 →
      match_score_of resume_name skills experience education semantic keyword = avg_expected) ∧
    (overall_score skills experience education semantic keyword ≤ 0.7 →
      match_score_of resume_name skills experience education semantic keyword =
        max (avg_expected - 2.0) 78.0) := by
  have key : match_score_of resume_name skills experience education semantic keyword =
      if overall_score skills experience education semantic keyword > 0.85 then
        min (avg_expected + 2.0) 85.0
      else if overall_score skills experience education semantic keyword > 0.7 then
        avg_expected
      else max (avg_expected - 2.0) 78.0 := by
    unfold match_score_of calibrate_score
    rw [h]
  rw [key]
  refine ⟨rfl, ?_, ?_, ?_, ?_⟩
  · split_ifs <;> tauto
  · intro h1
    rw [if_pos h1]
  · intro h1 h2
    rw [if_neg (by linarith), if_pos h1]
  · intro h1
    rw [if_neg (by linarith), if_neg (by linarith)]

/-- Witness for `calibrated_score_three_values` on a name outside the
table, with all axis scores 1. -/
theorem calibrated_score_three_values_witness :
    lookupExpected "Omar_Ezzeldin_Resume.pdf" = none ∧
    overall_score 1 1 1 1 1 > 0.85 ∧
    match_score_of "Omar_Ezzeldin_Resume.pdf" 1 1 1 1 1 = min (avg_expected + 2.0) 85.0 :=
  ⟨by decide,
    by
      unfold overall_score
      norm_num [weights_skills, weights_experience, weights_education,
        weights_semantic_similarity, weights_keyword_relevance],
    (calibrated_score_three_values "Omar_Ezzeldin_Resume.pdf" 1 1 1 1 1 (by decide)).2.2.1
      (by
        unfold overall_score
        norm_num [weights_skills, weights_experience, weights_education,
          weights_semantic_similarity, weights_keyword_relevance])⟩

/-- C1 counterexample: with all five axis scores equal to 1 and a resume
name outside the override table, the computed rescaled percentage is 95
but the returned `match_score` is `min (avg_expected + 2) 85 = 23341/275
≈ 84.88`, so the reported score is not the computed percentage. -/
theorem reported_score_ne_percentage_cex :
    lookupExpected "Omar_Ezzeldin_CV.pdf" = none ∧
    percentage_score_of 1 1 1 1 1 = 95 ∧
    match_score_of "Omar_Ezzeldin_CV.pdf" 1 1 1 1 1 = 23341 / 275 ∧
    match_score_of "Omar_Ezzeldin_CV.pdf" 1 1 1 1 1 ≠ percentage_score_of 1 1 1 1 1 := by
  have hp : percentage_score_of 1 1 1 1 1 = 95 := by
    unfold percentage_score_of pyRound2 normalize_score overall_score
    rw [round_eq]
    norm_num [weights_skills, weights_experience, weights_education,
      weights_semantic_similarity, weights_keyword_relevance]
  have hm : match_score_of "Omar_Ezzeldin_CV.pdf" 1 1 1 1 1 = 23341 / 275 := by
    unfold match_score_of calibrate_score overall_score
    rw [show lookupExpected "Omar_Ezzeldin_CV.pdf" = none from by decide]
    norm_num [avg_expected, expected_scores, weights_skills, weights_experience,
      weights_education, weights_semantic_similarity, weights_keyword_relevance]
  refine ⟨by decide, hp, hm, ?_⟩
  rw [hp, hm]
  norm_num

/-- C1 (amended): the weighted sum with weights 0.35/0.25/0.15/0.15/0.10
is rescaled into [0.75, 0.95] and rounded to a two-decimal percentage,
but that percentage is only a discarded local: the reported
`match_score` is `calibrate_score` of the raw weighted sum, and for a
resume outside the override table it is never equal to the computed
percentage. -/
theorem reported_score_never_percentage (resume_name : String)
    (skills experience education semantic keyword : ℚ)
    (h : lookupExpected resume_name = none) :
    match_score_of resume_name skills experience education semantic keyword =
      calibrate_score resume_name
        (overall_score skills experience education semantic keyword) ∧
    percentage_score_of skills experience education semantic keyword =
      pyRound2 (normalize_score
        (overall_score skills experience education semantic keyword) 0.75 0.95 * 100) ∧
    match_score_of resume_name skills experience education semantic keyword ≠
      percentage_score_of skills experience education semantic keyword := by
  refine ⟨rfl, rfl, ?_⟩
  intro heq
  have hden : (match_score_of resume_name skills experience education semantic keyword
      * 100).den = 11 := by
    unfold match_score_of calibrate_score
    rw [h]
    split_ifs <;> norm_num [avg_expected, expected_scores]
  have hz : match_score_of resume_name skills experience education semantic keyword * 100 =
      ((round (normalize_score
        (overall_score skills experience education semantic keyword) 0.75 0.95 * 100
          * 100) : ℤ) : ℚ) := by
    rw [heq]
    unfold percentage_score_of pyRound2
    field_simp
  rw [hz, Rat.den_intCast] at hden
  exact absurd hden (by norm_num)

/-- Witness for `reported_score_never_percentage` at a concrete resume
name and concrete axis scores. -/
theorem reported_score_never_percentage_witness :
    lookupExpected "some_other_resume.pdf" = none ∧
    match_score_of "some_other_resume.pdf" 0.9 0.8 1 0.8 0.8 ≠
      percentage_score_of 0.9 0.8 1 0.8 0.8 :=
  ⟨by decide,
    (reported_score_never_percentage "some_other_resume.pdf" 0.9 0.8 1 0.8 0.8
      (by decide)).2.2⟩

/-- The Jaccard value of the fallback path is non-negative. -/
lemma jaccard_nonneg (w1 w2 : Finset String) :
    0 ≤ ((w1 ∩ w2).card : ℚ) / ((w1.card : ℚ) + (w2.card : ℚ) - ((w1 ∩ w2).card : ℚ)) := by
  have h1 : (w1 ∩ w2).card ≤ w1.card := Finset.card_le_card Finset.inter_subset_left
  apply div_nonneg (by positivity)
  have h2 : ((w1 ∩ w2).card : ℚ) ≤ (w1.card : ℚ) := by exact_mod_cast h1
  have h3 : (0 : ℚ) ≤ (w2.card : ℚ) := by positivity
  linarith

/-- C9: the similarity backend always returns a value in [0, 1] (given
the cosine-similarity contract of the embedding path), returns exactly
0.8 when either input is empty, degrades any backend error to 0.8, and
in the fallback path returns the scaled Jaccard word overlap capped at
1.  The function is total, so no call can raise. -/
theorem similarity_contract (model : Option (String → String → Except String ℚ))
    (text1 text2 : String)
    (hcos : ∀ enc s, model = some enc → enc text1 text2 = Except.ok s → -1 ≤ s ∧ s ≤ 1) :
    (0 ≤ calculate_semantic_similarity model text1 text2 ∧
      calculate_semantic_similarity model text1 text2 ≤ 1) ∧
    (text1 = "" ∨ text2 = "" → calculate_semantic_similarity model text1 text2 = 0.8) ∧
    (∀ enc e, model = some enc → enc text1 text2 = Except.error e →
      calculate_semantic_similarity model text1 text2 = 0.8) ∧
    (model = none → text1 ≠ "" → text2 ≠ "" →
      wordSet text1 ≠ ∅ → wordSet text2 ≠ ∅ →
      calculate_semantic_similarity model text1 text2 =
        min (0.75 + ((wordSet text1 ∩ wordSet text2).card : ℚ) /
          ((wordSet text1).card + ((wordSet text2).card : ℚ) -
            ((wordSet text1 ∩ wordSet text2).card : ℚ)) * 0.25) 1) := by
  refine ⟨?_, ?_, ?_, ?_⟩
  · unfold calculate_semantic_similarity
    split_ifs with hemp
    · norm_num
    · match model, hcos with
      | none, _ =>
        simp only
        split_ifs with hw
        · norm_num
        · constructor
          · have := jaccard_nonneg (wordSet text1) (wordSet text2)
            apply le_min (by linarith) (by norm_num)
          · exact min_le_right _ _
      | some enc, hcos =>
        simp only
        match henc : enc text1 text2 with
        | Except.ok s =>
          obtain ⟨hs1, hs2⟩ := hcos enc s rfl henc
          constructor
          · exact le_min (by linarith) (by norm_num)
          · exact min_le_right _ _
        | Except.error _ => norm_num
  · intro hemp
    unfold calculate_semantic_similarity
    rw [if_pos hemp]
  · intro enc e hm henc
    subst hm
    unfold calculate_semantic_similarity
    split_ifs with hemp
    · rfl
    · simp only [henc]
  · intro hm h1 h2 hw1 hw2
    subst hm
    unfold calculate_semantic_similarity
    rw [if_neg (by tauto)]
    simp only
    rw [if_neg (by tauto)]

/-- Witness for `similarity_contract` in fallback mode on concrete
non-empty inputs. -/
theorem similarity_contract_witness :
    0 ≤ calculate_semantic_similarity none "python developer" "senior python engineer" ∧
    calculate_semantic_similarity none "python developer" "senior python engineer" ≤ 1 :=
  (similarity_contract none "python developer" "senior python engineer"
    (fun enc s h => by cases h)).1

/-- The inner best-match fold never decreases the running best score. -/
lemma best_foldl_le (sim : String → String → ℚ) (j : String) :
    ∀ (l : List String) (a : Option String × ℚ),
      a.2 ≤ (l.foldl (fun acc r =>
        if sim j r > acc.2 then (some r, sim j r) else acc) a).2
  | [], _ => le_refl _
  | r :: l, a => by
    refine le_trans ?_ (best_foldl_le sim j l _)
    by_cases hc : sim j r > a.2
    · simp only [if_pos hc]
      exact le_of_lt hc
    · simp only [if_neg hc]
      exact le_refl _

/-- The best score reached by the fold dominates every examined skill. -/
lemma best_foldl_ge_of_mem (sim : String → String → ℚ) (j : String) :
    ∀ (l : List String) (a : Option String × ℚ) (r : String), r ∈ l →
      sim j r ≤ (l.foldl (fun acc r =>
        if sim j r > acc.2 then (some r, sim j r) else acc) a).2
  | r' :: l, a, r, hr => by
    rcases List.mem_cons.mp hr with heq | hmem
    · subst heq
      refine le_trans ?_ (best_foldl_le sim j l _)
      by_cases hc : sim j r > a.2
      · simp only [if_pos hc]
        exact le_refl _
      · simp only [if_neg hc]
        exact le_of_not_lt hc
    · exact best_foldl_ge_of_mem sim j l _ r hmem

/-- The best score stays below any positive bound that dominates all
candidate similarities. -/
lemma best_foldl_lt (sim : String → String → ℚ) (j : String) (c : ℚ) :
    ∀ (l : List String) (a : Option String × ℚ), a.2 < c →
      (∀ r ∈ l, sim j r < c) →
      (l.foldl (fun acc r =>
        if sim j r > acc.2 then (some r, sim j r) else acc) a).2 < c
  | [], _, ha, _ => ha
  | r :: l, a, ha, h => by
    refine best_foldl_lt sim j c l _ ?_ fun r' hr' => h r' (List.mem_cons_of_mem _ hr')
    by_cases hc : sim j r > a.2
    · simp only [if_pos hc]
      exact h r (List.mem_cons_self r l)
    · simp only [if_neg hc]
      exact ha

/-- `bestMatch` stays below a positive bound dominating all similarities. -/
lemma bestMatch_snd_lt (sim : String → String → ℚ) (j : String)
    (rl : List String) (c : ℚ) (hc : 0 < c) (h : ∀ r ∈ rl, sim j r < c) :
    (bestMatch sim j rl).2 < c :=
  best_foldl_lt sim j c rl (none, 0) hc h

/-- `bestMatch` dominates the similarity of every resume skill. -/
lemma bestMatch_snd_ge (sim : String → String → ℚ) (j : String)
    (rl : List String) (r : String) (hr : r ∈ rl) :
    sim j r ≤ (bestMatch sim j rl).2 :=
  best_foldl_ge_of_mem sim j rl (none, 0) r hr

/-- C5: with required skills `["python", "react"]` and resume skills
`["python", "node"]`, "python" is the one direct match and "react" is
evaluated against both resume skills; whenever both similarities are
below the 0.6 threshold, "react" ends up in `missing_skills` and the
skills score is `0.8 + 0.2 * (1/2) = 0.90`. -/
theorem skills_scenario_python_react (sim : String → String → ℚ)
    (h1 : sim "react" "python" < 0.6) (h2 : sim "react" "node" < 0.6) :
    (calculate_skills_match sim ["python", "node"] ["python", "react"]).direct_matches =
      ["python"] ∧
    (calculate_skills_match sim ["python", "node"] ["python", "react"]).semantic_matches =
      [] ∧
    (calculate_skills_match sim ["python", "node"] ["python", "react"]).missing_skills =
      ["react"] ∧
    (calculate_skills_match sim ["python", "node"] ["python", "react"]).score =
      0.8 + 0.2 * (1 / 2) := by
  have hbest : (bestMatch sim "react" ["python", "node"]).2 < 0.6 := by
    refine bestMatch_snd_lt sim "react" _ 0.6 (by norm_num) ?_
    intro r hr
    rcases List.mem_cons.mp hr with h | h
    · rw [h]; exact h1
    · rw [List.mem_singleton.mp h]; exact h2
  have hsem : semanticMatches sim ["python", "node"] ["python", "react"] ["python"] = [] := by
    unfold semanticMatches
    rw [show (["python", "react"].filter fun j => decide (j ∉ ["python"])) = ["react"]
      from rfl]
    simp only [List.filterMap]
    rw [if_neg (not_le.mpr hbest)]
  have hjl : (["python", "react"] : List String).map pyLower = ["python", "react"] := rfl
  have hrl : (["python", "node"] : List String).map pyLower = ["python", "node"] := rfl
  have hcalc : calculate_skills_match sim ["python", "node"] ["python", "react"] =
      { score := min 1 (0.8 + ((1 : ℚ) + 0) / 2 * 0.2),
        direct_matches := ["python"],
        semantic_matches := [],
        missing_skills := ["react"] } := by
    unfold calculate_skills_match
    rw [if_neg (by norm_num)]
    simp only [hjl, hrl]
    rw [show directMatches ["python", "node"] ["python", "react"] = ["python"] from rfl]
    rw [hsem]
    rfl
  rw [hcalc]
  refine ⟨rfl, rfl, rfl, ?_⟩
  norm_num

/-- Witness for `skills_scenario_python_react` with the constant-zero
similarity backend. -/
theorem skills_scenario_python_react_witness :
    (fun _ _ : String => (0 : ℚ)) "react" "python" < 0.6 ∧
    (calculate_skills_match (fun _ _ => 0) ["python", "node"] ["python", "react"]).score =
      0.8 + 0.2 * (1 / 2) :=
  ⟨by norm_num,
    (skills_scenario_python_react (fun _ _ => 0) (by norm_num) (by norm_num)).2.2.2⟩

/-- Every fallback similarity is at least 0.75: each branch returns 0.8
or `min (0.75 + jaccard * 0.25) 1` with a non-negative Jaccard value. -/
lemma fallbackSimilarity_ge (a b : String) : (0.75 : ℚ) ≤ fallbackSimilarity a b := by
  unfold fallbackSimilarity calculate_semantic_similarity
  split_ifs with h
  · norm_num
  · simp only
    split_ifs with hw
    · norm_num
    · refine le_min ?_ (by norm_num)
      have := jaccard_nonneg (wordSet a) (wordSet b)
      linarith

/-- C6: in fallback mode every similarity is at least 0.75, which meets
the 0.6 semantic-match threshold; hence for a non-empty required-skills
list and a resume with at least one skill, `calculate_skills_match`
reports no missing skills. -/
theorem fallback_no_missing_skills :
    (∀ a b : String, a ≠ "" → b ≠ "" →
      (0.75 : ℚ) ≤ fallbackSimilarity a b ∧ (0.6 : ℚ) ≤ fallbackSimilarity a b) ∧
    (∀ resume_skills job_skills : List String, job_skills ≠ [] → resume_skills ≠ [] →
      (calculate_skills_match fallbackSimilarity resume_skills job_skills).missing_skills
        = []) := by
  constructor
  · intro a b _ _
    exact ⟨fallbackSimilarity_ge a b,
      le_trans (by norm_num) (fallbackSimilarity_ge a b)⟩
  · intro rs js hjs hrs
    have hempty : js.isEmpty = false := by
      cases js with
      | nil => exact absurd rfl hjs
      | cons a l => rfl
    unfold calculate_skills_match
    rw [if_neg (by rw [hempty]; exact Bool.false_ne_true)]
    dsimp only
    apply List.filter_eq_nil_iff.mpr
    intro j hj
    simp only [decide_eq_true_eq]
    rw [not_and, not_not]
    intro hjd
    have hrl : rs.map pyLower ≠ [] := by
      cases rs with
      | nil => exact absurd rfl hrs
      | cons a l => simp
    obtain ⟨r0, hr0⟩ := List.exists_mem_of_ne_nil _ hrl
    have hbs : (0.6 : ℚ) ≤ (bestMatch fallbackSimilarity j (rs.map pyLower)).2 :=
      le_trans (le_trans (by norm_num) (fallbackSimilarity_ge j r0))
        (bestMatch_snd_ge _ j _ r0 hr0)
    refine ⟨(j, (bestMatch fallbackSimilarity j (rs.map pyLower)).1,
      (bestMatch fallbackSimilarity j (rs.map pyLower)).2), ?_, rfl⟩
    unfold semanticMatches
    apply List.mem_filterMap.mpr
    refine ⟨j, List.mem_filter.mpr ⟨hj, by simpa using hjd⟩, ?_⟩
    simp only [if_pos hbs]

/-- Witness for `fallback_no_missing_skills` on concrete skill lists. -/
theorem fallback_no_missing_skills_witness :
    (0.75 : ℚ) ≤ fallbackSimilarity "react" "node" ∧
    (calculate_skills_match fallbackSimilarity ["node"] ["python", "react"]).missing_skills
      = [] :=
  ⟨(fallback_no_missing_skills.1 "react" "node" (by decide) (by decide)).1,
    fallback_no_missing_skills.2 ["node"] ["python", "react"]
      (by decide) (by decide)⟩

/-- Appending a job skill that is among the resume skills extends the
direct matches by exactly that skill. -/
lemma directMatches_append (rl jl : List String) (t : String) (ht : t ∈ rl) :
    directMatches rl (jl ++ [t]) = directMatches rl jl ++ [t] := by
  unfold directMatches
  rw [List.filter_append]
  simp [ht]

/-- Membership in the direct matches. -/
lemma mem_directMatches (rl jl : List String) (j : String) :
    j ∈ directMatches rl jl ↔ j ∈ jl ∧ j ∈ rl := by
  unfold directMatches
  simp [List.mem_filter]

/-- Appending a job skill already among the resume skills leaves the
semantic matches unchanged. -/
lemma semanticMatches_append (sim : String → String → ℚ) (rl jl : List String)
    (t : String) (ht : t ∈ rl) :
    semanticMatches sim rl (jl ++ [t]) (directMatches rl jl ++ [t]) =
      semanticMatches sim rl jl (directMatches rl jl) := by
  unfold semanticMatches
  rw [List.filter_append]
  have h2 : ([t].filter fun j => decide (j ∉ directMatches rl jl ++ [t])) = [] := by
    simp
  rw [h2, List.append_nil]
  congr 1
  apply List.filter_congr
  intro j hj
  simp only [decide_eq_decide, List.mem_append, List.mem_singleton]
  constructor
  · intro hnot hmem
    exact hnot (Or.inl hmem)
  · intro hnot hmem
    rcases hmem with hmem | heq
    · exact hnot hmem
    · exact hnot ((mem_directMatches rl jl j).mpr ⟨hj, heq ▸ ht⟩)

/-- Arithmetic core of the skills monotonicity: adding one direct match
and one required skill never lowers the capped score. -/
lemma skills_score_step (D S n : ℚ) (hn : 0 < n) :
    min 1 (0.8 + (D + S) / n * 0.2) ≤ min 1 (0.8 + (D + 1 + S) / (n + 1) * 0.2) := by
  rcases le_or_lt (D + S) n with hle | hlt
  · apply min_le_min le_rfl
    have hdiv : (D + S) / n ≤ (D + 1 + S) / (n + 1) := by
      rw [div_le_div_iff₀ hn (by linarith)]
      nlinarith
    linarith
  · have h1 : (1 : ℚ) ≤ 0.8 + (D + S) / n * 0.2 := by
      have := (one_le_div hn).mpr (le_of_lt hlt)
      linarith
    have h2 : (1 : ℚ) ≤ 0.8 + (D + 1 + S) / (n + 1) * 0.2 := by
      have h2' : (1 : ℚ) ≤ (D + 1 + S) / (n + 1) := by
        rw [one_le_div (show (0 : ℚ) < n + 1 by linarith)]
        linarith
      linarith
    rw [min_eq_left h1, min_eq_left h2]

/-- C7: the skills score is monotone in required-skill coverage —
appending to the required list a skill the resume already has
(case-insensitively) never decreases the score, for any backend. -/
theorem skills_score_monotone (sim : String → String → ℚ)
    (resume_skills job_skills : List String) (s : String)
    (h : ∃ r ∈ resume_skills, pyLower s = pyLower r) :
    (calculate_skills_match sim resume_skills job_skills).score ≤
      (calculate_skills_match sim resume_skills (job_skills ++ [s])).score := by
  obtain ⟨r, hr, hlow⟩ := h
  have ht : pyLower s ∈ resume_skills.map pyLower :=
    List.mem_map.mpr ⟨r, hr, hlow.symm⟩
  have hmapapp : (job_skills ++ [s]).map pyLower =
      job_skills.map pyLower ++ [pyLower s] := by
    rw [List.map_append]
    rfl
  by_cases hjs : job_skills = []
  · subst hjs
    have hL : (calculate_skills_match sim resume_skills []).score = 1 := rfl
    have hdir : directMatches (resume_skills.map pyLower) ([s].map pyLower)
        = [pyLower s] := by
      have := directMatches_append (resume_skills.map pyLower) [] (pyLower s) ht
      simpa using this
    have hsem : semanticMatches sim (resume_skills.map pyLower) ([s].map pyLower)
        [pyLower s] = [] := by
      have := semanticMatches_append sim (resume_skills.map pyLower) [] (pyLower s) ht
      simpa using this
    rw [hL]
    unfold calculate_skills_match
    rw [if_neg (show ¬(([] ++ [s] : List String).isEmpty = true) by simp)]
    dsimp only
    rw [show (([] ++ [s] : List String).map pyLower) = [s].map pyLower from rfl, hdir, hsem]
    norm_num
  · have hempty : job_skills.isEmpty = false := by
      cases job_skills with
      | nil => exact absurd rfl hjs
      | cons a l => rfl
    unfold calculate_skills_match
    rw [if_neg (by rw [hempty]; exact Bool.false_ne_true), if_neg (by simp [hjs])]
    dsimp only
    rw [hmapapp, directMatches_append _ _ _ ht, semanticMatches_append sim _ _ _ ht]
    rw [List.length_append, List.length_append]
    push_cast
    have hn : (0 : ℚ) < (job_skills.length : ℚ) := by
      have : 0 < job_skills.length := List.length_pos.mpr hjs
      exact_mod_cast this
    simpa using skills_score_step
      ((directMatches (resume_skills.map pyLower) (job_skills.map pyLower)).length : ℚ)
      (((semanticMatches sim (resume_skills.map pyLower) (job_skills.map pyLower)
        (directMatches (resume_skills.map pyLower) (job_skills.map pyLower))).map
          fun m => m.2.2).sum)
      ((job_skills.length : ℚ)) hn

/-- Witness for `skills_score_monotone` on concrete lists. -/
theorem skills_score_monotone_witness :
    (∃ r ∈ ["Python", "node"], pyLower "PYTHON" = pyLower r) ∧
    (calculate_skills_match (fun _ _ => 0) ["Python", "node"] ["react"]).score ≤
      (calculate_skills_match (fun _ _ => 0) ["Python", "node"]
        (["react"] ++ ["PYTHON"])).score :=
  ⟨⟨"Python", by decide, by decide⟩,
    skills_score_monotone (fun _ _ => 0) ["Python", "node"] ["react"] "PYTHON"
      ⟨"Python", by decide, by decide⟩⟩

/-- C3 counterexample: a single requirement line mentioning both a
bachelor degree and a PhD contributes "bachelor", not "phd", because
`extract_education_level` tests the bachelor keywords first. -/
theorem education_line_bachelor_and_phd_cex :
    extract_education_level "Bachelor degree or PhD required" = "bachelor" ∧
    required_education_of ["Bachelor degree or PhD required"] = "bachelor" ∧
    ("bachelor" : String) ≠ "phd" := by
  refine ⟨?_, ?_, ?_⟩ <;> decide

/-- `extract_education_level` only produces the four canonical values. -/
lemma extract_education_level_cases (t : String) :
    extract_education_level t = "" ∨ extract_education_level t = "bachelor" ∨
      extract_education_level t = "master" ∨ extract_education_level t = "phd" := by
  unfold extract_education_level
  dsimp only
  split_ifs <;> simp

/-- Per-line education ranks are at most 3. -/
lemma listEduMax_le (reqs : List String) : listEduMax reqs ≤ 3 := by
  induction reqs with
  | nil => simp [listEduMax]
  | cons r rest ih =>
    have hr : eduRank (extract_education_level r) ≤ 3 := by
      rcases extract_education_level_cases r with h | h | h | h <;>
        simp [h, eduRank]
    have hcons : listEduMax (r :: rest) =
        max (eduRank (extract_education_level r)) (listEduMax rest) := rfl
    rw [hcons]
    omega

/-- The education accumulation loop computes the per-line maximum under
the rank order, for any admissible accumulator. -/
lemma educationFrom_rank : ∀ (reqs : List String) (acc : String),
    acc = "" ∨ acc = "bachelor" ∨ acc = "master" →
    educationFrom reqs acc = rankToEdu (max (eduRank acc) (listEduMax reqs))
  | [], acc, hacc => by
    rcases hacc with h | h | h <;> subst h <;> rfl
  | req :: rest, acc, hacc => by
    have hcons : listEduMax (req :: rest) =
        max (eduRank (extract_education_level req)) (listEduMax rest) := rfl
    have hm3 := listEduMax_le rest
    have e0 : eduRank "" = 0 := by decide
    have e1 : eduRank "bachelor" = 1 := by decide
    have e2 : eduRank "master" = 2 := by decide
    have e3 : eduRank "phd" = 3 := by decide
    have ihe := educationFrom_rank rest "" (Or.inl rfl)
    have ihb := educationFrom_rank rest "bachelor" (Or.inr (Or.inl rfl))
    have ihm := educationFrom_rank rest "master" (Or.inr (Or.inr rfl))
    rcases extract_education_level_cases req with he | he | he | he <;>
      rcases hacc with ha | ha | ha <;> subst ha <;>
      rw [hcons] <;> dsimp only [educationFrom] <;> rw [he]
    -- extracted level "" : the line is skipped
    · rw [if_pos rfl, ihe, e0]
      congr 1
      omega
    · rw [if_pos rfl, ihb, e0, e1]
      congr 1
      omega
    · rw [if_pos rfl, ihm, e0, e2]
      congr 1
      omega
    -- extracted level "bachelor"
    · rw [if_neg (by decide), if_neg (by decide), if_neg (by decide), if_pos (by decide),
        ihb, e0, e1]
      congr 1
      omega
    · rw [if_neg (by decide), if_neg (by decide), if_neg (by decide), if_pos (by decide),
        ihb, e1]
      congr 1
      omega
    · rw [if_neg (by decide), if_neg (by decide), if_neg (by decide), if_neg (by decide),
        ihm, e1, e2]
      congr 1
      omega
    -- extracted level "master"
    · rw [if_neg (by decide), if_neg (by decide), if_pos (by decide), ihm, e0, e2]
      congr 1
      omega
    · rw [if_neg (by decide), if_neg (by decide), if_pos (by decide), ihm, e1, e2]
      congr 1
      omega
    · rw [if_neg (by decide), if_neg (by decide), if_pos (by decide), ihm, e2]
      congr 1
      omega
    -- extracted level "phd" : break with "phd"
    · rw [if_neg (by decide), if_pos rfl, e0, e3]
      have harg : max 0 (max 3 (listEduMax rest)) = 3 := by omega
      rw [harg]
      decide
    · rw [if_neg (by decide), if_pos rfl, e1, e3]
      have harg : max 1 (max 3 (listEduMax rest)) = 3 := by omega
      rw [harg]
      decide
    · rw [if_neg (by decide), if_pos rfl, e2, e3]
      have harg : max 2 (max 3 (listEduMax rest)) = 3 := by omega
      rw [harg]
      decide

/-- C3 (amended): `requiredEducation` is the highest per-line value under
PhD > Master > Bachelor across lines, but within a single line the
extractor tests bachelor first, then master, then phd — so a line that
mentions a bachelor keyword yields "bachelor" even when it also
mentions a PhD. -/
theorem required_education_highest_per_line :
    (∀ reqs : List String, required_education_of reqs = rankToEdu (listEduMax reqs)) ∧
    (∀ t : String, containsSub "bachelor" (pyLower t) = true →
      extract_education_level t = "bachelor") := by
  constructor
  · intro reqs
    rw [required_education_of, educationFrom_rank reqs "" (Or.inl rfl)]
    congr 1
    simp [eduRank]
  · intro t h
    unfold extract_education_level
    rw [if_pos (by simp [h])]

/-- Witness for `required_education_highest_per_line` on concrete lines. -/
theorem required_education_highest_per_line_witness :
    required_education_of ["Must hold a Master degree", "5 years of work"] =
      rankToEdu (listEduMax ["Must hold a Master degree", "5 years of work"]) ∧
    containsSub "bachelor" (pyLower "Bachelor of Science") = true ∧
    extract_education_level "Bachelor of Science" = "bachelor" :=
  ⟨required_education_highest_per_line.1 ["Must hold a Master degree", "5 years of work"],
    by decide,
    required_education_highest_per_line.2 "Bachelor of Science" (by decide)⟩

/-- C4 counterexample: the per-line years extractor is not bounded to
0–50 (it returns 100 verbatim) and does not convert "since <year>" to
elapsed years (it falls through to the level-word fallback and returns
0). -/
theorem years_extractor_unbounded_cex :
    extract_years_of_experience "100 years of experience" = 100 ∧
    ¬ extract_years_of_experience "100 years of experience" ≤ 50 ∧
    extract_years_of_experience "since 2018" = 0 ∧
    required_experience_years ["100 years of experience"] = 100 := by
  refine ⟨?_, ?_, ?_, ?_⟩ <;> decide

/-- The fold of `parse_job_requirements` over per-line years is a
running maximum. -/
lemma foldl_years_max : ∀ (l : List String) (a : ℕ),
    l.foldl (fun acc req =>
        let years := extract_years_of_experience req
        if years > acc then years else acc) a =
      max a ((l.map extract_years_of_experience).foldr max 0)
  | [], a => by simp
  | r :: l, a => by
    simp only [List.foldl, List.map, List.foldr]
    rw [foldl_years_max l _]
    have hstep : (if extract_years_of_experience r > a
        then extract_years_of_experience r else a) =
        max a (extract_years_of_experience r) := by
      split_ifs with h <;> omega
    rw [hstep]
    omega

/-- C4 (amended): `requiredYears` is the maximum over all requirement
lines of a per-line extractor that first tries the numeric pattern
`N(+|-M)? years/yrs` (no "since <year>" handling, no 0–50 bound) and
falls back to the level words entry/junior → 0, mid/intermediate → 2,
senior/experienced → 5 only when the numeric pattern finds no match. -/
theorem required_years_max_of_lines :
    (∀ reqs : List String, required_experience_years reqs =
      (reqs.map extract_years_of_experience).foldr max 0) ∧
    (∀ (t : String) (n : ℕ), searchYears (pyLower t).data = some n →
      extract_years_of_experience t = n) ∧
    (∀ t : String, searchYears (pyLower t).data = none →
      extract_years_of_experience t = levelWordYears (pyLower t)) ∧
    extract_years_of_experience "5+ years" = 5 ∧
    extract_years_of_experience "3-5 yrs" = 3 ∧
    extract_years_of_experience "entry level" = 0 ∧
    extract_years_of_experience "junior" = 0 ∧
    extract_years_of_experience "mid level" = 2 ∧
    extract_years_of_experience "intermediate" = 2 ∧
    extract_years_of_experience "senior" = 5 ∧
    extract_years_of_experience "experienced" = 5 := by
  refine ⟨fun reqs => ?_, fun t n h => ?_, fun t h => ?_,
    ?_, ?_, ?_, ?_, ?_, ?_, ?_, ?_⟩
  · rw [required_experience_years, foldl_years_max]
    omega
  · unfold extract_years_of_experience
    dsimp only
    rw [h]
  · unfold extract_years_of_experience
    dsimp only
    rw [h]
  all_goals decide

/-- Witness for `required_years_max_of_lines` on concrete lines. -/
theorem required_years_max_of_lines_witness :
    required_experience_years ["5+ years", "junior"] =
      (["5+ years", "junior"].map extract_years_of_experience).foldr max 0 ∧
    searchYears (pyLower "7 yrs").data = some 7 ∧
    extract_years_of_experience "7 yrs" = 7 :=
  ⟨required_years_max_of_lines.1 ["5+ years", "junior"],
    by decide,
    required_years_max_of_lines.2.1 "7 yrs" 7 (by decide)⟩

end ResumeRanker
